import Mathlib

/-!
Shallow embedding of the marketplace-service repository index cache and
synchronization engine, together with theorems checking the natural-language
specification against it.

Conventions of the embedding:
* Go strings are modelled as lists of byte values (`List Nat`, each entry a
  value below 256), because the code indexes strings byte by byte.
* Go `int`/`int64` values are modelled as `Int`; Go integer division
  (truncation toward zero) is written with `Int.tdiv` explicitly.
* Go maps are modelled either as functions into `Option` (for the caches and
  the status map) or as association lists (for a map snapshot that is only
  iterated).
* Effectful functions are modelled by explicit state passing; outcomes of
  network calls are passed in as `Except`/`Option` parameters.
* `sort.Slice` calls are modelled by `List.insertionSort` on the corresponding
  (non-strict) relation: the Go sort is unstable, and `insertionSort` produces
  one ordering permitted by it (the unique one when the relation is a total
  strict order on the elements at hand).
-/

/-! ## Restful response codes (src/pkg/constant/constants.go) -/

def successCode : Int := 200

def clientErrorCode : Int := 400

def resourceNotFoundCode : Int := 404

def serverErrorCode : Int := 500

/-- Restful response body (httputil.ResponseJson) without its data field. -/
structure ResponseJson where
  code : Int
  msg : String
deriving DecidableEq, Repr

/-- Restful response body carrying typed data. -/
structure ResponseData (α : Type) where
  code : Int
  msg : String
  data : α
deriving DecidableEq, Repr

/-- Default 500 response (httputil.GetDefaultServerFailureResponseJson). -/
def serverFailureResponse : ResponseJson :=
  { code := serverErrorCode, msg := "remote server busy" }

/-! ## Data model (helm.sh repo.ChartVersion, repo.IndexFile) -/

/-- One package version record of a repository index.  `created` is the
creation timestamp, abstracted to a natural number. -/
structure ChartVersion where
  name : String
  version : String
  created : Nat
  keywords : List String
deriving DecidableEq, Repr

/-- The entries of a repository index: map from chart name to its version
list, modelled as an association-list snapshot of the Go map. -/
abbrev IndexEntries : Type := List (String × List ChartVersion)

/-- Parsed repository index document (repo.IndexFile restricted to the
fields the engine reads). -/
structure IndexFile where
  apiVersion : String
  entries : IndexEntries
deriving DecidableEq

/-- A repository record: display name and base URL (the fields of the
repository custom resource that the query engine reads). -/
structure RepoRec where
  displayName : String
  url : String
deriving DecidableEq, Repr

/-! ## ChartIndexCache (src/pkg/helm/cache.go)

The in-memory cache is a Go map from repository name to index entries,
modelled as a function into `Option`.  The lock discipline is irrelevant to
the sequential functional claims and is not modelled. -/

def ChartCacheMap : Type := String → Option IndexEntries

/-- SetChartCache: atomic wholesale replace of one repository's entries. -/
def SetChartCache (cache : ChartCacheMap) (repoName : String) (indexFile : IndexFile) :
    ChartCacheMap :=
  fun r => if r = repoName then some indexFile.entries else cache r

/-- GetChartCacheByRepo: lookup with a found flag, `(nil, false)` when the
repository was never stored. -/
def GetChartCacheByRepo (cache : ChartCacheMap) (repoName : String) :
    Option IndexEntries × Bool :=
  match cache repoName with
  | some indexEntries => (some indexEntries, true)
  | none => (none, false)

/-- DeleteChartCache: removes one repository's entry. -/
def DeleteChartCache (cache : ChartCacheMap) (repoName : String) : ChartCacheMap :=
  fun r => if r = repoName then none else cache r

/-! ## Pagination (src/pkg/server/param/queryparam.go) -/

def noPaginationLimit : Int := -1

def noPaginationPage : Int := 1

/-- Pagination window carried by a query. -/
structure Pagination where
  limit : Int
  offset : Int
  currentPage : Int
deriving DecidableEq, Repr

/-- The newPagination constructor: offset is derived from the page number. -/
def newPagination (limit page : Int) : Pagination :=
  { limit := limit, offset := (page - 1) * limit, currentPage := page }

/-- GetNoPagination: the distinguished no-limit pagination. -/
def GetNoPagination : Pagination :=
  newPagination noPaginationLimit noPaginationPage

/-- GetPaginationResult returns (startIndex, endIndex, totalPages).
`Int.tdiv` is Go integer division (truncation toward zero). -/
def GetPaginationResult (p : Pagination) (total : Int) : Int × Int × Int :=
  if p.limit ≤ 0 ∨ p.offset < 0 then (0, total, 1)
  else if p.limit = noPaginationLimit then (0, total, 1)
  else
    let offset := if p.offset > total then 0 else p.offset
    (offset, min (offset + p.limit) total, (total - 1).tdiv p.limit + 1)

/-- List page assembled by pageResult (helm.ListResponse). -/
structure ListResponse (α : Type) where
  totalItems : Nat
  items : List α
  currentPage : Int
  totalPages : Int
deriving DecidableEq, Repr

/-- The pageResult helper of src/pkg/helm/charts.go: slices the full result
list down to the requested window.  A missing pagination defaults to
GetNoPagination.  The Go slice expression `result[start:end]` is
`(result.take end).drop start`. -/
def pageResult (result : List α) (pagination : Option Pagination) : ListResponse α :=
  let p := pagination.getD GetNoPagination
  let r := GetPaginationResult p (result.length : Int)
  { totalItems := result.length
    items := (result.take r.2.1.toNat).drop r.1.toNat
    currentPage := p.currentPage
    totalPages := r.2.2 }

/-- Modelled from the spec: ceiling division of the total item count by the
limit, the claimed formula for totalPages. -/
def specCeilingDiv (total limit : Int) : Int :=
  (total + limit - 1).tdiv limit

/-! ## Custom name comparator (src/pkg/helm/charts.go, customCompare / getPriority)

The Go code indexes the strings byte by byte (`rune(a[i])` on a Go string
yields the i-th byte, a value in 0..255) and classifies that value with the
Latin-1 fast paths of the `unicode` package.  The byte-level classification
tables below spell those fast paths out for the code points 0..255. -/

def orderZero : Nat := 0

def orderOne : Nat := 1

def orderTwo : Nat := 2

def orderThree : Nat := 3

def ascendingOrder : Int := 1

def descendingOrder : Int := -1

/-- Go `unicode.IsSymbol(r) || unicode.IsPunct(r)` for a code point in
0..255: the Unicode categories P and S restricted to Latin-1.  ASCII runs:
`!..\/`, `:..@`, `[..` + backquote, and the four of `\x7b |..~`; Latin-1
supplement: 161..169, 171, 172, 174..177, 180, 182..184, 187, 191 and the
two arithmetic signs 215 and 247. -/
def isPunctSymbolByte (c : Nat) : Bool :=
  decide ((33 ≤ c ∧ c ≤ 47) ∨ (58 ≤ c ∧ c ≤ 64) ∨ (91 ≤ c ∧ c ≤ 96) ∨
    (123 ≤ c ∧ c ≤ 126) ∨ (161 ≤ c ∧ c ≤ 169) ∨ c = 171 ∨ c = 172 ∨
    (174 ≤ c ∧ c ≤ 177) ∨ c = 180 ∨ (182 ≤ c ∧ c ≤ 184) ∨ c = 187 ∨
    c = 191 ∨ c = 215 ∨ c = 247)

/-- Go `unicode.IsLetter` for a code point in 0..255: ASCII letters, the
ordinal indicators 170 and 186, micro sign 181, and the Latin-1 letters
192..255 without the two arithmetic signs 215 and 247. -/
def isLetterByte (c : Nat) : Bool :=
  decide ((65 ≤ c ∧ c ≤ 90) ∨ (97 ≤ c ∧ c ≤ 122) ∨ c = 170 ∨ c = 181 ∨
    c = 186 ∨ (192 ≤ c ∧ c ≤ 214) ∨ (216 ≤ c ∧ c ≤ 246) ∨
    (248 ≤ c ∧ c ≤ 255))

/-- Go `unicode.IsDigit` for a code point in 0..255: the ASCII digits. -/
def isDigitByte (c : Nat) : Bool :=
  decide (48 ≤ c ∧ c ≤ 57)

/-- Go `unicode.ToLower` for a code point in 0..255: ASCII upper case and
the Latin-1 upper-case letters 192..222 (excluding the multiplication sign
215) map 32 positions up; everything else is fixed. -/
def toLowerByte (c : Nat) : Nat :=
  if 65 ≤ c ∧ c ≤ 90 then c + 32
  else if (192 ≤ c ∧ c ≤ 222) ∧ c ≠ 215 then c + 32
  else c

/-- getPriority of src/pkg/helm/charts.go: priority class of one byte. -/
def getPriority (c : Nat) : Nat :=
  if isPunctSymbolByte c then orderZero
  else if isLetterByte c then orderOne
  else if isDigitByte c then orderTwo
  else orderThree

/-- customCompare of src/pkg/helm/charts.go as a recursion over the two
byte lists.  The Go loop walks both strings while both have bytes left; the
final clause compares the lengths of the full strings, which (an equal
prefix having been consumed on both sides) agrees with comparing the
lengths of the remaining suffixes. -/
def customCompare : List Nat → List Nat → Int → Bool
  | a :: as, b :: bs, sortOrder =>
    let pa := getPriority a
    let pb := getPriority b
    if pa ≠ pb then decide (pa < pb) == decide (sortOrder = 1)
    else if a ≠ b then
      if toLowerByte a = toLowerByte b then
        decide (a < b) == decide (sortOrder = 1)
      else
        decide (toLowerByte a < toLowerByte b) == decide (sortOrder = 1)
    else customCompare as bs sortOrder
  | [], bs, sortOrder =>
    decide (([] : List Nat).length < bs.length) == decide (sortOrder = 1)
  | as, [], sortOrder =>
    decide (as.length < ([] : List Nat).length) == decide (sortOrder = 1)

/-- Modelled from the spec (§4.4 step 2): the priority class of a
character, written from the spec sentence "punctuation/symbol = 0,
letter = 1, digit = 2, anything else = 3". -/
def specPriorityClass (c : Nat) : Nat :=
  if isPunctSymbolByte c then 0
  else if isLetterByte c then 1
  else if isDigitByte c then 2
  else 3

/-- Modelled from the spec, the comparator exactly as claim C1 words it:
position by position; at the first position where the classes differ the
lower class sorts first for ascending and last for descending; if the
classes match but the characters differ, compare case-insensitively with a
case-insensitive tie broken by raw code point, honoring the direction; and
if every compared position is equal, the shorter string sorts first
(unqualified by direction, as the claim states it). -/
def specCompare : List Nat → List Nat → Int → Bool
  | x :: xs, y :: ys, dir =>
    if specPriorityClass x ≠ specPriorityClass y then
      if dir = 1 then decide (specPriorityClass x < specPriorityClass y)
      else decide (specPriorityClass y < specPriorityClass x)
    else if x ≠ y then
      if toLowerByte x = toLowerByte y then
        if dir = 1 then decide (x < y) else decide (y < x)
      else
        if dir = 1 then decide (toLowerByte x < toLowerByte y)
        else decide (toLowerByte y < toLowerByte x)
    else specCompare xs ys dir
  | xs, ys, _ => decide (xs.length < ys.length)

/-- Modelled from the spec, amended: identical to `specCompare` except that
the final length clause honors the sort direction — the shorter string
sorts first under ascending, while under descending the comparator reports
a before b exactly when a is not shorter than b. -/
def specCompareAmended : List Nat → List Nat → Int → Bool
  | x :: xs, y :: ys, dir =>
    if specPriorityClass x ≠ specPriorityClass y then
      if dir = 1 then decide (specPriorityClass x < specPriorityClass y)
      else decide (specPriorityClass y < specPriorityClass x)
    else if x ≠ y then
      if toLowerByte x = toLowerByte y then
        if dir = 1 then decide (x < y) else decide (y < x)
      else
        if dir = 1 then decide (toLowerByte x < toLowerByte y)
        else decide (toLowerByte y < toLowerByte x)
    else specCompareAmended xs ys dir
  | xs, ys, dir =>
    if dir = 1 then decide (xs.length < ys.length)
    else !decide (xs.length < ys.length)

/-- sortChartByName of src/pkg/helm/charts.go: sorts a list of names with
the custom comparator in the requested direction. -/
def sortChartByName (chartList : List (List Nat)) (ascending : Bool) : List (List Nat) :=
  if ascending then
    chartList.insertionSort (fun i j => customCompare i j ascendingOrder = true)
  else
    chartList.insertionSort (fun i j => customCompare i j descendingOrder = true)

/-! ## Latest-version query (src/pkg/helm/charts.go, getLatestChartsFromRepository;
src/pkg/helm/utils.go, ExtractUniqueKeywords) -/

/-- Insertion step of the keyword dedup: the Go code uses a set-map; the
model keeps the first occurrence of each keyword. -/
def insertUnique (acc : List String) (k : String) : List String :=
  if k ∈ acc then acc else acc ++ [k]

/-- ExtractUniqueKeywords of src/pkg/helm/utils.go: the union of the
keyword sets of all versions.  The Go map iteration order is unspecified;
the model fixes first-occurrence order, and the theorems only use the
membership set. -/
def ExtractUniqueKeywords (chartVersions : List ChartVersion) : List String :=
  chartVersions.foldl (fun acc cv => cv.keywords.foldl insertUnique acc) []

/-- Ordering used by getLatestChartsFromRepository: most recent creation
time first (the Go code sorts with the strict `Created.After`; the sorted
result is non-increasing in `created`). -/
def byCreatedDesc (a b : ChartVersion) : Prop :=
  b.created ≤ a.created

instance : DecidableRel byCreatedDesc := fun a b => Nat.decLe b.created a.created

instance : IsTotal ChartVersion byCreatedDesc :=
  ⟨fun a b => Nat.le_total b.created a.created⟩

instance : IsTrans ChartVersion byCreatedDesc :=
  ⟨fun _ _ _ hab hbc => Nat.le_trans hbc hab⟩

/-- The per-package body of getLatestChartsFromRepository: sort the version
list by creation time descending, skip the package when the list is empty,
and otherwise emit the first (most recent) entry with its keywords replaced
by the union over all versions. -/
def getLatestFromVersions (chartVersions : List ChartVersion) : Option ChartVersion :=
  let sorted := chartVersions.insertionSort byCreatedDesc
  match sorted with
  | [] => none
  | v :: _ => some { v with keywords := ExtractUniqueKeywords sorted }

/-- One emitted chart record (helm.ChartVersionResponse). -/
structure ChartVersionResponse where
  metadata : ChartVersion
  repo : String
  repoUrl : String
deriving DecidableEq, Repr

/-- getLatestChartsFromRepository of src/pkg/helm/charts.go: reads the
repository's entries from the cache — on a missing cache entry the Go code
only logs and iterates the nil map, i.e. proceeds with no entries — and
emits the latest version per package. -/
def getLatestChartsFromRepository (cache : ChartCacheMap) (repository : RepoRec) :
    List ChartVersionResponse :=
  let chartList := (cache repository.displayName).getD []
  chartList.filterMap fun p =>
    (getLatestFromVersions p.2).map fun v =>
      { metadata := v, repo := repository.displayName, repoUrl := repository.url }

/-! ## Size-bounded response buffer and cache update
(src/pkg/helm/load.go, limitedBuffer.Write; src/pkg/helm/cache.go,
UpdateChartCache) -/

/-- The fixed byte ceiling: constant.ResponseBodyLimit << constant.ToMegabytes
= 100 shifted left by 20 bits. -/
def responseBodyByteCeiling : Int := 100 * 1048576

/-- State of the size-bounded buffer. -/
structure LimitedBuffer where
  buffer : List Nat
  maxSize : Int
  written : Int
deriving DecidableEq

/-- newLimitedBuffer: empty buffer with the given ceiling. -/
def newLimitedBuffer (maxSize : Int) : LimitedBuffer :=
  { buffer := [], maxSize := maxSize, written := 0 }

/-- limitedBuffer.Write of src/pkg/helm/load.go: a write that would push the
accumulated size past the ceiling fails with an error and changes nothing;
otherwise the bytes are appended and the write count advances. -/
def limitedBufferWrite (l : LimitedBuffer) (p : List Nat) :
    Except String (LimitedBuffer × Nat) :=
  if l.written + (p.length : Int) > l.maxSize then
    Except.error "response body exceeds the size limit"
  else
    Except.ok ({ l with buffer := l.buffer ++ p, written := l.written + (p.length : Int) },
      p.length)

/-- UpdateChartCache of src/pkg/helm/cache.go: loads the repository index
and replaces the cache entry only on success.  The outcome of
LoadRepoIndex (a network fetch plus parse) is passed in as a parameter. -/
def UpdateChartCache (cache : ChartCacheMap) (repoName : String)
    (loadResult : Except String IndexFile) : ChartCacheMap × Option String :=
  match loadResult with
  | Except.error e => (cache, some e)
  | Except.ok index => (fun r => if r = repoName then some index.entries else cache r, none)

/-! ## Repository sync orchestrator (src/unnamed/part_001, SyncAllRepos /
asyncUpdateRepository / SyncRepo / GetRepoSyncStatus) -/

def syncInProgressMsg : String := "in_progress"

def syncCompleteMsg : String := "complete"

def syncFailedMsg : String := "failed"

/-- Outcome of one repository's asynchronous update, covering the three
error exits of asyncUpdateRepository and its success path. -/
inductive SyncOutcome where
  | convertErr (e : String)
  | loadErr (e : String)
  | patchErr (e : String) (index : IndexFile)
  | ok (index : IndexFile)

/-- Shared mutable state touched by the orchestrator: the chart cache and
the per-repository sync-status map (repoAsyncTaskMap). -/
structure SyncState where
  cache : ChartCacheMap
  statusMap : String → Option String

/-- asyncUpdateRepository of src/unnamed/part_001: converts the repository
record, refreshes the cache through UpdateChartCache, then patches the
modification time; each failure is sent to the error channel (returned
here as the second component).  The status map is never touched. -/
def asyncUpdateRepository (st : SyncState) (repoName : String) (outcome : SyncOutcome) :
    SyncState × Option (String × String) :=
  match outcome with
  | SyncOutcome.convertErr e => (st, some (repoName, e))
  | SyncOutcome.loadErr e => (st, some (repoName, e))
  | SyncOutcome.patchErr e index =>
    ({ st with cache := fun r => if r = repoName then some index.entries else st.cache r },
      some (repoName, e))
  | SyncOutcome.ok index =>
    ({ st with cache := fun r => if r = repoName then some index.entries else st.cache r },
      none)

/-- The batch body of SyncAllRepos: one asyncUpdateRepository per listed
repository, error reports collected on the buffered channel.  The
concurrent tasks are independent; the model linearizes them in list
order. -/
def syncAllBatch (st : SyncState) (repos : List String) (outcomes : String → SyncOutcome) :
    SyncState × List (String × String) :=
  repos.foldl
    (fun acc name =>
      let step := asyncUpdateRepository acc.1 name (outcomes name)
      (step.1, acc.2 ++ step.2.toList))
    (st, [])

/-- The response SyncAllRepos hands back before any per-repository work is
awaited. -/
def syncAllResponse : ResponseJson :=
  { code := successCode, msg := "synchronizing repositories" }

/-- SyncAllRepos of src/unnamed/part_001: lists the repositories (failure
there is the only non-accepted exit), then fires the batch and returns
202 Accepted immediately.  The first component is the HTTP reply, the
second the state and error reports once the detached batch completes. -/
def SyncAllRepos (st : SyncState) (listResult : Except String (List String))
    (outcomes : String → SyncOutcome) :
    (ResponseJson × Nat) × SyncState × List (String × String) :=
  match listResult with
  | Except.error _ => ((serverFailureResponse, 500), st, [])
  | Except.ok repos => ((syncAllResponse, 202), syncAllBatch st repos outcomes)

/-- GetRepoSyncStatus of src/unnamed/part_001: reads the status map; a
repository without an entry answers 400 "update task not found". -/
def GetRepoSyncStatus (st : SyncState) (repoName : String) : ResponseJson × Nat :=
  match st.statusMap repoName with
  | none => ({ code := clientErrorCode, msg := repoName ++ " update task not found" }, 400)
  | some s => ({ code := successCode, msg := s }, 200)

/-- Outcome of the repository catalog lookup getCustomRepoByName. -/
inductive RepoLookupErr where
  | notFound
  | other
deriving DecidableEq

/-- Store into the sync-status map (repoAsyncTaskMap.Store). -/
def storeStatus (m : String → Option String) (k v : String) : String → Option String :=
  fun r => if r = k then some v else m r

/-- The synchronous part of SyncRepo of src/unnamed/part_001: empty-name
and not-found guards, then the status-map switch — an in-progress
repository is rejected with a 400 client error and nothing else happens; an
absent, complete or failed status is overwritten with in_progress and the
detached sync task is started (the returned Bool); any other stored status
falls to the default 500 branch.  The detached task itself is not part of
this function. -/
def SyncRepoSync (statusMap : String → Option String) (repoDisplayName : String)
    (lookup : Except RepoLookupErr Unit) :
    (ResponseJson × Nat) × (String → Option String) × Bool :=
  if repoDisplayName = "" then
    (({ code := clientErrorCode, msg := "please provide repo name for sync" }, 400),
      statusMap, false)
  else
    match lookup with
    | Except.error RepoLookupErr.notFound =>
      (({ code := clientErrorCode, msg := " repository " ++ repoDisplayName ++ " not found" },
        400), statusMap, false)
    | Except.error RepoLookupErr.other => ((serverFailureResponse, 500), statusMap, false)
    | Except.ok _ =>
      match statusMap repoDisplayName with
      | some s =>
        if s = syncInProgressMsg then
          (({ code := clientErrorCode,
              msg := " repository " ++ repoDisplayName ++ " syncronizing in progress" }, 400),
            statusMap, false)
        else if s = syncFailedMsg ∨ s = syncCompleteMsg then
          (({ code := successCode, msg := "syncronizing repository " ++ repoDisplayName }, 202),
            storeStatus statusMap repoDisplayName syncInProgressMsg, true)
        else ((serverFailureResponse, 500), statusMap, false)
      | none =>
        (({ code := successCode, msg := "syncronizing repository " ++ repoDisplayName }, 202),
          storeStatus statusMap repoDisplayName syncInProgressMsg, true)

/-! ## Version lookup (src/pkg/helm/charts.go, GetChartVersion / needShow) -/

/-- needShow of src/pkg/helm/charts.go: a version filter that is empty
matches every entry; otherwise only the exact version matches. -/
def needShow (entry : ChartVersion) (version : String) : Bool :=
  if version ≠ "" ∧ entry.version ≠ version then false else true

/-- Lookup of a Go map key with the nil default: `indexEntries[chartName]`
on the association-list snapshot. -/
def lookupEntries (es : IndexEntries) (chartName : String) : List ChartVersion :=
  ((es.find? fun p => p.1 == chartName).map Prod.snd).getD []

/-- GetChartVersion of src/pkg/helm/charts.go: resolves the repository
record (the catalog lookup outcome is a parameter), then answers from the
cache — a repository present in the catalog but missing from the cache
answers 404 "please sync your repository"; a cached repository answers 200
with the (possibly empty) filtered version list. -/
def GetChartVersion (lookup : Except RepoLookupErr RepoRec) (cache : ChartCacheMap)
    (chartName version : String) : ResponseData (List ChartVersionResponse) × Nat :=
  match lookup with
  | Except.error RepoLookupErr.notFound =>
    ({ code := resourceNotFoundCode, msg := "repository not found", data := [] }, 404)
  | Except.error RepoLookupErr.other =>
    ({ code := serverErrorCode, msg := "remote server busy", data := [] }, 500)
  | Except.ok repository =>
    match cache repository.displayName with
    | none =>
      ({ code := resourceNotFoundCode, msg := "please sync your repository", data := [] }, 404)
    | some indexEntries =>
      let chartList := ((lookupEntries indexEntries chartName).filter
          fun entry => needShow entry version).map
        fun entry =>
          { metadata := entry, repo := repository.displayName, repoUrl := repository.url }
      ({ code := successCode, msg := "success", data := chartList }, 200)

/-! ## Official tag lookup with bounded retry (src/pkg/helm/charts.go,
getChartWithOfficialTag / GetChartsWithOfficialTags)

Each iteration of the retry loop is one handleTagRequest call: a single tag
request which, on a 401 with a token challenge, also renews the bearer
token and still counts as a failed attempt (it returns nil).  The loop is
modelled against an oracle giving the outcome of the i-th call. -/

def maxRetries : Nat := 3

/-- Response of the official tag endpoint (helm.OfficialTagsResponse). -/
structure OfficialTagsResponse where
  taggedCharts : List String
deriving DecidableEq, Repr

/-- Per-tag result (helm.ChartVersionResponseWithTag, with the chart list
abstracted to the raw tag response). -/
structure ChartVersionResponseWithTag where
  tag : String
  response : OfficialTagsResponse
deriving DecidableEq, Repr

/-- The retry loop of getChartWithOfficialTag: starting at call index i
with the given number of iterations left, return the first non-nil
handleTagRequest outcome. -/
def tagRequestLoop (attempts : Nat → Option OfficialTagsResponse) :
    Nat → Nat → Option OfficialTagsResponse
  | _, 0 => none
  | i, rem + 1 =>
    match attempts i with
    | some r => some r
    | none => tagRequestLoop attempts (i + 1) rem

/-- getChartWithOfficialTag of src/pkg/helm/charts.go: up to maxRetries
handleTagRequest calls; when all fail the tag lookup surfaces an error. -/
def getChartWithOfficialTag (tag : String)
    (attempts : Nat → Option OfficialTagsResponse) :
    Except String ChartVersionResponseWithTag :=
  match tagRequestLoop attempts 0 maxRetries with
  | none => Except.error "official tags request no response with max retries"
  | some r => Except.ok { tag := tag, response := r }

/-- GetChartsWithOfficialTags of src/pkg/helm/charts.go: processes every
tag of the batch; a failing tag is logged and skipped, the rest are
returned in a 200 response. -/
def GetChartsWithOfficialTags (tags : List String)
    (attemptsOf : String → Nat → Option OfficialTagsResponse) :
    ResponseData (List ChartVersionResponseWithTag) × Nat :=
  ({ code := successCode
     msg := "success"
     data := tags.filterMap fun t => (getChartWithOfficialTag t (attemptsOf t)).toOption },
    200)

/-! ## Theorems -/

/-! ### C10 — cache frame effects -/

/-- C10: for any two distinct repository names r and rp, SetChartCache and
DeleteChartCache on r leave GetChartCacheByRepo on rp unchanged; and
immediately after SetChartCache r index, GetChartCacheByRepo r returns
exactly the entries of the index with found = true. -/
theorem cache_frame_effects (cache : ChartCacheMap) (r rp : String) (idx : IndexFile)
    (h : r ≠ rp) :
    GetChartCacheByRepo (SetChartCache cache r idx) rp = GetChartCacheByRepo cache rp ∧
    GetChartCacheByRepo (DeleteChartCache cache r) rp = GetChartCacheByRepo cache rp ∧
    GetChartCacheByRepo (SetChartCache cache r idx) r = (some idx.entries, true) := by
  refine ⟨?_, ?_, ?_⟩
  · unfold GetChartCacheByRepo SetChartCache
    rw [if_neg (Ne.symm h)]
  · unfold GetChartCacheByRepo DeleteChartCache
    rw [if_neg (Ne.symm h)]
  · unfold GetChartCacheByRepo SetChartCache
    rw [if_pos rfl]

/-- A small concrete cache holding one repository. -/
def cacheW : ChartCacheMap := fun r => if r = "b" then some [] else none

/-- Witness for C10 at a concrete cache and distinct names. -/
theorem cache_frame_effects_witness :
    GetChartCacheByRepo (SetChartCache cacheW "a" { apiVersion := "v1", entries := [] }) "b" =
        GetChartCacheByRepo cacheW "b" ∧
    GetChartCacheByRepo (DeleteChartCache cacheW "a") "b" = GetChartCacheByRepo cacheW "b" ∧
    GetChartCacheByRepo (SetChartCache cacheW "a" { apiVersion := "v1", entries := [] }) "a" =
        (some ([] : IndexEntries), true) :=
  cache_frame_effects cacheW "a" "b" { apiVersion := "v1", entries := [] } (by decide)

/-! ### C3 — pagination -/

/-- C3 counterexample: for the empty record list with limit 10,
GetPaginationResult reports 1 total page while the ceiling division of the
total item count (0) by the limit is 0, so totalPages does not always equal
the ceiling division. -/
theorem pagination_totalPages_cex :
    (GetPaginationResult { limit := 10, offset := 0, currentPage := 1 } 0).2.2 ≠
      specCeilingDiv 0 10 := by decide

/-- On nonnegative operands `Int.tdiv` is Nat division. -/
theorem ofNat_tdiv (a b : Nat) : ((a : Int)).tdiv (b : Int) = ((a / b : Nat) : Int) := rfl

/-- The Go totalPages formula agrees with ceiling division once at least
one item is present. -/
theorem tdiv_pred_add_one_eq_ceil (total limit : Int) (hl : 0 < limit) (ht : 1 ≤ total) :
    (total - 1).tdiv limit + 1 = (total + limit - 1).tdiv limit := by
  lift total to ℕ using (by omega : (0 : Int) ≤ total)
  lift limit to ℕ using (by omega : (0 : Int) ≤ limit)
  have htn : 1 ≤ total := by exact_mod_cast ht
  have hln : 0 < limit := by exact_mod_cast hl
  have e1 : ((total : Int) - 1) = ((total - 1 : Nat) : Int) := by omega
  have e2 : ((total : Int) + limit - 1) = ((total + limit - 1 : Nat) : Int) := by omega
  rw [e1, e2, ofNat_tdiv, ofNat_tdiv]
  have e4 : total + limit - 1 = (total - 1) + limit := by omega
  rw [e4, Nat.add_div_right _ hln]
  omega

/-- C3 amended: GetPaginationResult returns the full list as one page for
the no-limit sentinel; an offset beyond the item count behaves exactly as
offset 0 (the first page); totalPages equals the ceiling division of the
total item count by the limit whenever at least one item is present (for an
empty list the code reports 1 page, not 0); and the concrete examples — 25
items, limit 10, page 3 yields items 21..25 with 3 total pages; page 99
resets to items 1..10. -/
theorem paginate_amended :
    (∀ (off page total : Int),
      GetPaginationResult { limit := noPaginationLimit, offset := off, currentPage := page }
        total = (0, total, 1)) ∧
    (∀ (limit off page total : Int), 0 < limit → 0 ≤ total → total < off →
      GetPaginationResult { limit := limit, offset := off, currentPage := page } total =
        GetPaginationResult { limit := limit, offset := 0, currentPage := page } total) ∧
    (∀ (limit off page total : Int), 0 < limit → 0 ≤ off → 1 ≤ total →
      (GetPaginationResult { limit := limit, offset := off, currentPage := page } total).2.2 =
        specCeilingDiv total limit) ∧
    pageResult (List.range 25) (some (newPagination 10 3)) =
      { totalItems := 25, items := [20, 21, 22, 23, 24], currentPage := 3, totalPages := 3 } ∧
    pageResult (List.range 25) (some (newPagination 10 99)) =
      { totalItems := 25, items := [0, 1, 2, 3, 4, 5, 6, 7, 8, 9], currentPage := 99,
        totalPages := 3 } := by
  refine ⟨?_, ?_, ?_, by decide, by decide⟩
  · intro off page total
    unfold GetPaginationResult
    rw [if_pos (Or.inl (by norm_num [noPaginationLimit]))]
  · intro limit off page total hl ht ho
    simp only [GetPaginationResult, noPaginationLimit]
    split_ifs <;> first | rfl | omega
  · intro limit off page total hl ho ht
    simp only [GetPaginationResult, noPaginationLimit, specCeilingDiv]
    split_ifs <;>
      first
        | omega
        | exact tdiv_pred_add_one_eq_ceil total limit hl ht

/-- Witness for C3 at concrete inputs. -/
theorem paginate_amended_witness :
    GetPaginationResult { limit := 10, offset := 30, currentPage := 4 } 25 =
        GetPaginationResult { limit := 10, offset := 0, currentPage := 4 } 25 ∧
    (GetPaginationResult { limit := 10, offset := 0, currentPage := 1 } 25).2.2 =
        specCeilingDiv 25 10 :=
  ⟨paginate_amended.2.1 10 30 4 25 (by decide) (by decide) (by decide),
    paginate_amended.2.2.1 10 0 1 25 (by decide) (by decide) (by decide)⟩

/-! ### C2 — concrete sort example

The byte strings: "a1" = [97, 49], "A2" = [65, 50], "-x" = [45, 120],
"9" = [57]. -/

/-- C2 counterexample: sorting ["a1", "A2", "-x", "9"] ascending by name
does not produce the order ["-x", "a1", "A2", "9"] claimed by the spec. -/
theorem sortByName_example_cex :
    sortChartByName [[97, 49], [65, 50], [45, 120], [57]] true ≠
      [[45, 120], [97, 49], [65, 50], [57]] := by decide

/-- C2 amended: sorting ["a1", "A2", "-x", "9"] ascending by name with the
custom comparator produces exactly ["-x", "A2", "a1", "9"]: punctuation
first, then the letters — which tie case-insensitively, so the raw
code-point tiebreak puts "A2" (65) before "a1" (97) — then digits. -/
theorem sortByName_example_amended :
    sortChartByName [[97, 49], [65, 50], [45, 120], [57]] true =
      [[45, 120], [65, 50], [97, 49], [57]] := by decide

/-! ### C1 — the comparator against its specification -/

/-- The spec-side priority class coincides with the code's getPriority. -/
theorem specPriorityClass_eq_getPriority (c : Nat) : specPriorityClass c = getPriority c := rfl

/-- Direction handling of one Go comparison `(p < q) == (sortOrder == 1)`
on distinct numbers: ascending keeps the strict comparison, descending
flips it. -/
theorem beq_dir_eq (p q : Nat) (hne : p ≠ q) (dir : Int) :
    (decide (p < q) == decide (dir = 1)) =
      if dir = 1 then decide (p < q) else decide (q < p) := by
  by_cases hd : dir = 1 <;> by_cases hpq : p < q <;>
    simp [hd, hpq] <;> omega

/-- Direction handling of the final length comparison, which the code
applies to possibly equal lengths. -/
theorem beq_dir_len (m n : Nat) (dir : Int) :
    (decide (m < n) == decide (dir = 1)) =
      if dir = 1 then decide (m < n) else !decide (m < n) := by
  by_cases hd : dir = 1 <;> cases h : decide (m < n) <;> simp [hd, h]

/-- C1 counterexample: for the strings "a" and "ab" under the descending
direction, every compared position is equal but the code comparator does
not put the shorter string first (it returns false where the spec's
unqualified "the shorter string sorts first" demands true). -/
theorem customCompare_length_clause_cex :
    customCompare [97] [97, 98] descendingOrder ≠
      specCompare [97] [97, 98] descendingOrder := by decide

/-- C1 amended: the code comparator agrees with the spec's description at
every pair of byte strings and every direction once the final clause is
amended to honor the direction — the shorter string sorts first under
ascending, while under descending the comparator reports a before b
exactly when a is not shorter than b. -/
theorem customCompare_matches_spec_amended (a b : List Nat) (dir : Int) :
    customCompare a b dir = specCompareAmended a b dir := by
  induction a generalizing b with
  | nil =>
    cases b with
    | nil =>
      simp only [customCompare, specCompareAmended]
      exact beq_dir_len _ _ _
    | cons y ys =>
      simp only [customCompare, specCompareAmended]
      exact beq_dir_len _ _ _
  | cons x xs ih =>
    cases b with
    | nil =>
      simp only [customCompare, specCompareAmended]
      exact beq_dir_len _ _ _
    | cons y ys =>
      simp only [customCompare, specCompareAmended, specPriorityClass_eq_getPriority]
      by_cases h1 : getPriority x = getPriority y
      · have h1n : ¬(getPriority x ≠ getPriority y) := fun hc => hc h1
        conv_lhs => rw [if_neg h1n]
        conv_rhs => rw [if_neg h1n]
        by_cases h2 : x = y
        · subst h2
          have h2n : ¬(x ≠ x) := fun hc => hc rfl
          conv_lhs => rw [if_neg h2n]
          conv_rhs => rw [if_neg h2n]
          exact ih ys
        · conv_lhs => rw [if_pos h2]
          conv_rhs => rw [if_pos h2]
          by_cases h3 : toLowerByte x = toLowerByte y
          · conv_lhs => rw [if_pos h3]
            conv_rhs => rw [if_pos h3]
            exact beq_dir_eq x y h2 dir
          · conv_lhs => rw [if_neg h3]
            conv_rhs => rw [if_neg h3]
            exact beq_dir_eq (toLowerByte x) (toLowerByte y) h3 dir
      · conv_lhs => rw [if_pos h1]
        conv_rhs => rw [if_pos h1]
        exact beq_dir_eq _ _ h1 dir

/-! ### C5 — size-bounded buffer and cache preservation on failed sync -/

/-- C5: a write that would push the accumulated body past the byte ceiling
fails immediately with the size error (and yields no new buffer state); a
failed index load leaves every previously cached entry untouched; and only
a fully successful load replaces the cache entry for the synced repository,
leaving all other repositories unchanged. -/
theorem oversized_write_fails_and_cache_preserved :
    (∀ (l : LimitedBuffer) (p : List Nat), l.written + (p.length : Int) > l.maxSize →
      limitedBufferWrite l p = Except.error "response body exceeds the size limit") ∧
    (∀ (cache : ChartCacheMap) (repoName e : String),
      (UpdateChartCache cache repoName (Except.error e)).1 = cache ∧
      (UpdateChartCache cache repoName (Except.error e)).2 = some e) ∧
    (∀ (cache : ChartCacheMap) (repoName : String) (index : IndexFile),
      (UpdateChartCache cache repoName (Except.ok index)).1 repoName = some index.entries ∧
      ∀ r, r ≠ repoName →
        (UpdateChartCache cache repoName (Except.ok index)).1 r = cache r) := by
  refine ⟨?_, ?_, ?_⟩
  · intro l p h
    unfold limitedBufferWrite
    rw [if_pos h]
  · intro cache repoName e
    exact ⟨rfl, rfl⟩
  · intro cache repoName index
    refine ⟨?_, ?_⟩
    · show (if repoName = repoName then some index.entries else cache repoName) =
        some index.entries
      rw [if_pos rfl]
    · intro r hr
      show (if r = repoName then some index.entries else cache r) = cache r
      rw [if_neg hr]

/-- Witness for C5: a concrete oversized write fails, and a failed load of
repository "r" leaves a concrete cache unchanged. -/
theorem oversized_write_fails_and_cache_preserved_witness :
    limitedBufferWrite { buffer := [], maxSize := 2, written := 0 } [1, 2, 3] =
        Except.error "response body exceeds the size limit" ∧
    (UpdateChartCache cacheW "r" (Except.error "response body exceeds the size limit")).1 =
        cacheW ∧
    (UpdateChartCache cacheW "r"
        (Except.ok { apiVersion := "v1", entries := [] })).1 "r" = some [] :=
  ⟨oversized_write_fails_and_cache_preserved.1 _ _ (by decide),
    (oversized_write_fails_and_cache_preserved.2.1 cacheW "r" _).1,
    (oversized_write_fails_and_cache_preserved.2.2 cacheW "r"
      { apiVersion := "v1", entries := [] }).1⟩

/-! ### C7 — single-repository sync conflict handling -/

/-- C7: for a nonempty repository name that resolves in the catalog, a sync
request while the stored status is in_progress is rejected synchronously
with a 400 client error, the status map is unchanged and no work is
started; while an absent, complete or failed status yields a 202 accepted
response, flips the repository's status to in_progress (leaving every
other repository's status unchanged) and starts the sync task. -/
theorem syncRepo_conflict_and_accept (statusMap : String → Option String)
    (name : String) (hname : name ≠ "") :
    (statusMap name = some syncInProgressMsg →
      SyncRepoSync statusMap name (Except.ok ()) =
        (({ code := clientErrorCode,
            msg := " repository " ++ name ++ " syncronizing in progress" }, 400),
          statusMap, false)) ∧
    ((statusMap name = none ∨ statusMap name = some syncCompleteMsg ∨
        statusMap name = some syncFailedMsg) →
      (SyncRepoSync statusMap name (Except.ok ())).1 =
          ({ code := successCode, msg := "syncronizing repository " ++ name }, 202) ∧
      (SyncRepoSync statusMap name (Except.ok ())).2.1 name = some syncInProgressMsg ∧
      (∀ r, r ≠ name →
        (SyncRepoSync statusMap name (Except.ok ())).2.1 r = statusMap r) ∧
      (SyncRepoSync statusMap name (Except.ok ())).2.2 = true) := by
  constructor
  · intro hst
    unfold SyncRepoSync
    rw [if_neg hname, hst]
    rfl
  · intro hst
    have hred : SyncRepoSync statusMap name (Except.ok ()) =
        (({ code := successCode, msg := "syncronizing repository " ++ name }, 202),
          storeStatus statusMap name syncInProgressMsg, true) := by
      unfold SyncRepoSync
      rw [if_neg hname]
      rcases hst with h | h | h <;> rw [h] <;> rfl
    rw [hred]
    refine ⟨rfl, ?_, ?_, rfl⟩
    · simp [storeStatus]
    · intro r hr
      simp [storeStatus, hr]

/-- A concrete status map with repository "r" currently syncing. -/
def statusMapW : String → Option String := fun r =>
  if r = "r" then some syncInProgressMsg else none

/-- Witness for C7: with "r" in progress the request is rejected without a
state change; a repository "s" with no stored status is accepted. -/
theorem syncRepo_conflict_and_accept_witness :
    SyncRepoSync statusMapW "r" (Except.ok ()) =
        (({ code := clientErrorCode,
            msg := " repository " ++ "r" ++ " syncronizing in progress" }, 400),
          statusMapW, false) ∧
    (SyncRepoSync statusMapW "s" (Except.ok ())).1 =
        ({ code := successCode, msg := "syncronizing repository " ++ "s" }, 202) ∧
    (SyncRepoSync statusMapW "s" (Except.ok ())).2.1 "s" = some syncInProgressMsg :=
  ⟨(syncRepo_conflict_and_accept statusMapW "r" (by decide)).1 (by simp [statusMapW]),
    ((syncRepo_conflict_and_accept statusMapW "s" (by decide)).2
      (Or.inl (by simp [statusMapW]))).1,
    ((syncRepo_conflict_and_accept statusMapW "s" (by decide)).2
      (Or.inl (by simp [statusMapW]))).2.1⟩

/-! ### C6 — batch sync is fire-and-forget, but does not feed the status map -/

/-- A concrete sync state with nothing cached and no statuses stored. -/
def emptySyncState : SyncState :=
  { cache := fun _ => none, statusMap := fun _ => none }

/-- A concrete one-chart index file. -/
def ixW : IndexFile :=
  { apiVersion := "v1"
    entries := [("app", [{ name := "app", version := "0.1.0", created := 1, keywords := [] }])] }

/-- C6 counterexample: after a batch sync of the single repository "r"
whose per-repository work succeeds, GetRepoSyncStatus for "r" still answers
400 "update task not found" — neither complete nor failed — because the
batch path never writes the sync-status map, so the outcome is not
discoverable through getSyncStatus. -/
theorem syncAll_status_not_discoverable_cex :
    GetRepoSyncStatus
        (SyncAllRepos emptySyncState (Except.ok ["r"]) (fun _ => SyncOutcome.ok ixW)).2.1
        "r" =
      ({ code := clientErrorCode, msg := "r update task not found" }, 400) ∧
    ({ code := clientErrorCode, msg := "r update task not found" } : ResponseJson).msg ≠
        syncCompleteMsg ∧
    ({ code := clientErrorCode, msg := "r update task not found" } : ResponseJson).msg ≠
        syncFailedMsg := by
  refine ⟨rfl, by decide, by decide⟩

/-- The batch fold leaves the status map exactly as it started. -/
theorem syncAllBatch_statusMap_eq (repos : List String) (outcomes : String → SyncOutcome)
    (acc : SyncState × List (String × String)) :
    (repos.foldl
      (fun acc name =>
        let step := asyncUpdateRepository acc.1 name (outcomes name)
        (step.1, acc.2 ++ step.2.toList))
      acc).1.statusMap = acc.1.statusMap := by
  induction repos generalizing acc with
  | nil => rfl
  | cons r rs ih =>
    rw [List.foldl_cons, ih]
    cases outcomes r <;> rfl

/-- C6 amended: SyncAllRepos hands back the fixed 202 "synchronizing
repositories" response immediately, independent of every per-repository
outcome (fire-and-forget); but the batch path never writes the
per-repository sync-status map, so after the detached batch completes
GetRepoSyncStatus answers exactly as it did before the batch — per-repository
outcomes are only reported on the internal error channel and logged, and are
discoverable through getSyncStatus only for repositories synced through the
single-repository endpoint. -/
theorem syncAll_accepted_and_status_unchanged :
    (∀ (st : SyncState) (repos : List String) (outcomes : String → SyncOutcome),
      (SyncAllRepos st (Except.ok repos) outcomes).1 = (syncAllResponse, 202)) ∧
    (∀ (st : SyncState) (repos : List String) (outcomes : String → SyncOutcome),
      (SyncAllRepos st (Except.ok repos) outcomes).2.1.statusMap = st.statusMap) ∧
    (∀ (st : SyncState) (repos : List String) (outcomes : String → SyncOutcome)
        (name : String),
      GetRepoSyncStatus (SyncAllRepos st (Except.ok repos) outcomes).2.1 name =
        GetRepoSyncStatus st name) := by
  have hmap : ∀ (st : SyncState) (repos : List String) (outcomes : String → SyncOutcome),
      (SyncAllRepos st (Except.ok repos) outcomes).2.1.statusMap = st.statusMap := by
    intro st repos outcomes
    exact syncAllBatch_statusMap_eq repos outcomes (st, [])
  refine ⟨fun _ _ _ => rfl, hmap, ?_⟩
  intro st repos outcomes name
  unfold GetRepoSyncStatus
  rw [hmap]

/-! ### C8 — never-synced repository answers -/

/-- A cache with no repositories stored. -/
def emptyCache : ChartCacheMap := fun _ => none

/-- A concrete repository record present in the catalog. -/
def repoW : RepoRec := { displayName := "r", url := "https://r.example" }

/-- C8 counterexample: for a repository in the catalog with no chart-cache
entry, the latest-charts search path does not answer "please sync your
repository" — getLatestChartsFromRepository only logs the missing cache and
emits the empty result, which the GetLatestCharts endpoint then wraps in
a 200 "success" response. -/
theorem never_synced_search_empty_cex :
    getLatestChartsFromRepository emptyCache repoW = [] ∧
    pageResult (getLatestChartsFromRepository emptyCache repoW) none =
      { totalItems := 0, items := [], currentPage := 1, totalPages := 1 } := by
  exact ⟨rfl, rfl⟩

/-- C8 amended: a repository found in the catalog but absent from the chart
cache answers the version-lookup queries (GetChartVersion, and thereby
GetChartVersions) with 404 "please sync your repository" rather than an
empty result; the latest-charts search path instead logs the missing cache
entry and contributes an empty record list to a success response. -/
theorem never_synced_version_query_msg (cache : ChartCacheMap) (repository : RepoRec)
    (chartName version : String) (h : cache repository.displayName = none) :
    GetChartVersion (Except.ok repository) cache chartName version =
      ({ code := resourceNotFoundCode, msg := "please sync your repository", data := [] },
        404) ∧
    getLatestChartsFromRepository cache repository = [] := by
  constructor
  · simp only [GetChartVersion]
    rw [h]
  · unfold getLatestChartsFromRepository
    rw [h]
    rfl

/-- Witness for C8 at the concrete never-synced repository. -/
theorem never_synced_version_query_msg_witness :
    GetChartVersion (Except.ok repoW) emptyCache "app" "" =
      ({ code := resourceNotFoundCode, msg := "please sync your repository", data := [] },
        404) ∧
    getLatestChartsFromRepository emptyCache repoW = [] :=
  never_synced_version_query_msg emptyCache repoW "app" "" rfl

/-! ### C9 — bounded tag retry and per-tag skipping -/

/-- If every remaining attempt fails, the retry loop yields nothing. -/
theorem tagRequestLoop_none (attempts : Nat → Option OfficialTagsResponse) :
    ∀ (rem i : Nat), (∀ j, j < rem → attempts (i + j) = none) →
      tagRequestLoop attempts i rem = none := by
  intro rem
  induction rem with
  | zero => intro i _; rfl
  | succ n ih =>
    intro i h
    have h0 : attempts i = none := by simpa using h 0 (Nat.succ_pos n)
    have e : tagRequestLoop attempts i (n + 1) =
        match attempts i with
        | some r => some r
        | none => tagRequestLoop attempts (i + 1) n := rfl
    rw [e, h0]
    refine ih (i + 1) fun j hj => ?_
    have := h (j + 1) (Nat.succ_lt_succ hj)
    rw [show i + 1 + j = i + (j + 1) by omega]
    exact this

/-- The retry loop only consults the attempts it is allowed to make. -/
theorem tagRequestLoop_congr (attempts attempts2 : Nat → Option OfficialTagsResponse) :
    ∀ (rem i : Nat), (∀ j, j < rem → attempts (i + j) = attempts2 (i + j)) →
      tagRequestLoop attempts i rem = tagRequestLoop attempts2 i rem := by
  intro rem
  induction rem with
  | zero => intro i _; rfl
  | succ n ih =>
    intro i h
    have h0 : attempts i = attempts2 i := by simpa using h 0 (Nat.succ_pos n)
    have e : tagRequestLoop attempts i (n + 1) =
        match attempts i with
        | some r => some r
        | none => tagRequestLoop attempts (i + 1) n := rfl
    have e2 : tagRequestLoop attempts2 i (n + 1) =
        match attempts2 i with
        | some r => some r
        | none => tagRequestLoop attempts2 (i + 1) n := rfl
    rw [e, e2, h0]
    cases attempts2 i with
    | some r => rfl
    | none =>
      refine ih (i + 1) fun j hj => ?_
      have := h (j + 1) (Nat.succ_lt_succ hj)
      rw [show i + 1 + j = i + (j + 1) by omega]
      exact this

/-- C9: a tag lookup consults at most maxRetries (3) attempt outcomes —
its result is unchanged by whatever would happen from the 4th call on; if
all 3 attempts fail, that lookup alone surfaces the retry-exhausted error;
in a batch, such a tag is skipped while the tags before and after it are
still processed; every tag whose lookup succeeds contributes its result;
and the batch always answers 200 success. -/
theorem tag_retry_bounded_and_batch_skips :
    (∀ (tag : String) (attempts : Nat → Option OfficialTagsResponse),
      (∀ i, i < maxRetries → attempts i = none) →
      getChartWithOfficialTag tag attempts =
        Except.error "official tags request no response with max retries") ∧
    (∀ (tag : String) (attempts attempts2 : Nat → Option OfficialTagsResponse),
      (∀ i, i < maxRetries → attempts i = attempts2 i) →
      getChartWithOfficialTag tag attempts = getChartWithOfficialTag tag attempts2) ∧
    (∀ (pre post : List String) (t : String)
        (attemptsOf : String → Nat → Option OfficialTagsResponse),
      (∀ i, i < maxRetries → attemptsOf t i = none) →
      (GetChartsWithOfficialTags (pre ++ t :: post) attemptsOf).1.data =
        (GetChartsWithOfficialTags pre attemptsOf).1.data ++
          (GetChartsWithOfficialTags post attemptsOf).1.data) ∧
    (∀ (tags : List String) (attemptsOf : String → Nat → Option OfficialTagsResponse)
        (t : String) (r : ChartVersionResponseWithTag), t ∈ tags →
      getChartWithOfficialTag t (attemptsOf t) = Except.ok r →
      r ∈ (GetChartsWithOfficialTags tags attemptsOf).1.data) ∧
    (∀ (tags : List String) (attemptsOf : String → Nat → Option OfficialTagsResponse),
      (GetChartsWithOfficialTags tags attemptsOf).1.code = successCode ∧
      (GetChartsWithOfficialTags tags attemptsOf).2 = 200) := by
  have hfail : ∀ (tag : String) (attempts : Nat → Option OfficialTagsResponse),
      (∀ i, i < maxRetries → attempts i = none) →
      getChartWithOfficialTag tag attempts =
        Except.error "official tags request no response with max retries" := by
    intro tag attempts h
    unfold getChartWithOfficialTag
    rw [tagRequestLoop_none attempts maxRetries 0 fun j hj => h (0 + j) (by omega)]
  refine ⟨hfail, ?_, ?_, ?_, fun _ _ => ⟨rfl, rfl⟩⟩
  · intro tag attempts attempts2 h
    unfold getChartWithOfficialTag
    rw [tagRequestLoop_congr attempts attempts2 maxRetries 0
      fun j hj => h (0 + j) (by omega)]
  · intro pre post t attemptsOf h
    show ((pre ++ t :: post).filterMap
        fun t => (getChartWithOfficialTag t (attemptsOf t)).toOption) = _
    rw [List.filterMap_append, List.filterMap_cons, hfail t (attemptsOf t) h]
    rfl
  · intro tags attemptsOf t r ht hok
    show r ∈ tags.filterMap fun t => (getChartWithOfficialTag t (attemptsOf t)).toOption
    exact List.mem_filterMap.mpr ⟨t, ht, by rw [hok]; rfl⟩

/-- Witness for C9: when every attempt for tag "t" fails, the single-tag
lookup surfaces the bounded-retry error and a batch of "a", "t", "b" with
succeeding outcomes for "a" and "b" processes exactly those two. -/
theorem tag_retry_bounded_and_batch_skips_witness :
    getChartWithOfficialTag "t" (fun _ => none) =
      Except.error "official tags request no response with max retries" ∧
    (GetChartsWithOfficialTags ["a", "t", "b"]
        (fun tag _ => if tag = "t" then none else some { taggedCharts := [tag] })).1.data =
      (GetChartsWithOfficialTags ["a"]
        (fun tag _ => if tag = "t" then none else some { taggedCharts := [tag] })).1.data ++
      (GetChartsWithOfficialTags ["b"]
        (fun tag _ => if tag = "t" then none else some { taggedCharts := [tag] })).1.data :=
  ⟨tag_retry_bounded_and_batch_skips.1 "t" (fun _ => none) fun _ _ => rfl,
    tag_retry_bounded_and_batch_skips.2.2.1 ["a"] ["b"] "t"
      (fun tag _ => if tag = "t" then none else some { taggedCharts := [tag] })
      fun _ _ => by simp⟩

/-! ### C4 — latest-version query with keyword union -/

/-- Membership through one keyword insertion. -/
theorem mem_insertUnique (acc : List String) (k x : String) :
    x ∈ insertUnique acc k ↔ x ∈ acc ∨ x = k := by
  unfold insertUnique
  by_cases h : k ∈ acc
  · rw [if_pos h]
    constructor
    · exact Or.inl
    · rintro (hx | rfl)
      · exact hx
      · exact h
  · rw [if_neg h]
    simp

/-- Membership through folding one version's keyword list. -/
theorem mem_foldl_insertUnique (ks : List String) (acc : List String) (x : String) :
    x ∈ ks.foldl insertUnique acc ↔ x ∈ acc ∨ x ∈ ks := by
  induction ks generalizing acc with
  | nil => simp
  | cons k ks ih =>
    rw [List.foldl_cons, ih, mem_insertUnique]
    simp [or_assoc]

/-- ExtractUniqueKeywords computes exactly the union of the keyword sets of
all versions. -/
theorem mem_ExtractUniqueKeywords (vs : List ChartVersion) (x : String) :
    x ∈ ExtractUniqueKeywords vs ↔ ∃ w, w ∈ vs ∧ x ∈ w.keywords := by
  have main : ∀ (l : List ChartVersion) (acc : List String),
      x ∈ l.foldl (fun acc cv => cv.keywords.foldl insertUnique acc) acc ↔
        x ∈ acc ∨ ∃ w, w ∈ l ∧ x ∈ w.keywords := by
    intro l
    induction l with
    | nil => intro acc; simp
    | cons v l ih =>
      intro acc
      rw [List.foldl_cons, ih, mem_foldl_insertUnique]
      simp only [List.mem_cons]
      constructor
      · rintro ((hacc | hkw) | ⟨w, hw, hx⟩)
        · exact Or.inl hacc
        · exact Or.inr ⟨v, Or.inl rfl, hkw⟩
        · exact Or.inr ⟨w, Or.inr hw, hx⟩
      · rintro (hacc | ⟨w, rfl | hw, hx⟩)
        · exact Or.inl (Or.inl hacc)
        · exact Or.inl (Or.inr hx)
        · exact Or.inr ⟨w, hw, hx⟩
  unfold ExtractUniqueKeywords
  rw [main vs []]
  simp

/-- The sorted version list is empty exactly when the input is. -/
theorem insertionSort_byCreatedDesc_nil_iff (vs : List ChartVersion) :
    vs.insertionSort byCreatedDesc = [] ↔ vs = [] := by
  constructor
  · intro h
    have hp := List.perm_insertionSort byCreatedDesc vs
    rw [h] at hp
    exact (hp.symm).eq_nil
  · intro h
    rw [h]
    rfl

/-- getLatestFromVersions skips exactly the empty version lists. -/
theorem getLatestFromVersions_none_iff (vs : List ChartVersion) :
    getLatestFromVersions vs = none ↔ vs = [] := by
  unfold getLatestFromVersions
  rcases hs : vs.insertionSort byCreatedDesc with _ | ⟨v, rest⟩
  · simpa using (insertionSort_byCreatedDesc_nil_iff vs).mp hs
  · have : vs ≠ [] := by
      intro hnil
      rw [hnil] at hs
      exact List.cons_ne_nil v rest hs.symm
    simpa using this

/-- Per-repository record count: one record per package with at least one
version. -/
theorem filterMap_latest_length (repository : RepoRec)
    (entries : List (String × List ChartVersion)) :
    (entries.filterMap fun p =>
        (getLatestFromVersions p.2).map fun v =>
          ({ metadata := v, repo := repository.displayName, repoUrl := repository.url } :
            ChartVersionResponse)).length =
      (entries.filter fun p => !p.2.isEmpty).length := by
  induction entries with
  | nil => rfl
  | cons p ps ih =>
    simp only [List.filterMap_cons, List.filter_cons]
    by_cases hp : p.2 = []
    · rw [(getLatestFromVersions_none_iff p.2).mpr hp]
      simp [hp, ih]
    · obtain ⟨x, hx⟩ : ∃ x, getLatestFromVersions p.2 = some x := by
        rcases ho : getLatestFromVersions p.2 with _ | x
        · exact absurd ((getLatestFromVersions_none_iff p.2).mp ho) hp
        · exact ⟨x, rfl⟩
      rw [hx]
      simp [List.isEmpty_iff, hp, ih]

/-- C4: for a cached repository index, each package with at least one
version yields a record whose creation time is maximal among all versions
of the package, which is (up to the keyword replacement) one of those
versions, and whose keyword set is the union of the keyword sets of all
versions; a package with an empty version list yields nothing, and the
emitted list has exactly one record per package with at least one
version. -/
theorem latest_version_query (cache : ChartCacheMap) (repository : RepoRec)
    (entries : IndexEntries) (h : cache repository.displayName = some entries) :
    ((getLatestChartsFromRepository cache repository).length =
      (entries.filter fun p => !p.2.isEmpty).length) ∧
    (∀ p : String × List ChartVersion, p ∈ entries → p.2 = [] →
      getLatestFromVersions p.2 = none) ∧
    (∀ p : String × List ChartVersion, p ∈ entries → p.2 ≠ [] →
      ∃ v, getLatestFromVersions p.2 = some v ∧
        (∃ w, w ∈ p.2 ∧ v.name = w.name ∧ v.version = w.version ∧
          v.created = w.created) ∧
        (∀ w, w ∈ p.2 → w.created ≤ v.created) ∧
        (∀ k, k ∈ v.keywords ↔ ∃ w, w ∈ p.2 ∧ k ∈ w.keywords)) := by
  refine ⟨?_, fun p _ hnil => (getLatestFromVersions_none_iff p.2).mpr hnil, ?_⟩
  · unfold getLatestChartsFromRepository
    rw [h]
    exact filterMap_latest_length repository entries
  · intro p _ hne
    rcases hs : p.2.insertionSort byCreatedDesc with _ | ⟨v, rest⟩
    · exact absurd ((insertionSort_byCreatedDesc_nil_iff p.2).mp hs) hne
    · have hperm : List.Perm (v :: rest) p.2 := by
        rw [← hs]
        exact List.perm_insertionSort byCreatedDesc p.2
      have hsorted : List.Sorted byCreatedDesc (v :: rest) := by
        rw [← hs]
        exact List.sorted_insertionSort byCreatedDesc p.2
      have hglv : getLatestFromVersions p.2 =
          some { v with keywords := ExtractUniqueKeywords (v :: rest) } := by
        unfold getLatestFromVersions
        rw [hs]
      refine ⟨{ v with keywords := ExtractUniqueKeywords (v :: rest) }, hglv,
        ⟨v, hperm.mem_iff.mp (List.mem_cons_self v rest), rfl, rfl, rfl⟩, ?_, ?_⟩
      · intro w hw
        have hw2 : w ∈ v :: rest := hperm.mem_iff.mpr hw
        rcases List.mem_cons.mp hw2 with rfl | hwr
        · exact Nat.le_refl _
        · exact (List.sorted_cons.mp hsorted).1 w hwr
      · intro k
        show k ∈ ExtractUniqueKeywords (v :: rest) ↔ _
        rw [mem_ExtractUniqueKeywords]
        constructor
        · rintro ⟨w, hw, hk⟩
          exact ⟨w, hperm.mem_iff.mp hw, hk⟩
        · rintro ⟨w, hw, hk⟩
          exact ⟨w, hperm.mem_iff.mpr hw, hk⟩

/-- Concrete two-version package: v2W is created after v1W and the keyword
sets differ (the keyword-union test of spec §8). -/
def v1W : ChartVersion := { name := "p", version := "1", created := 1, keywords := ["a"] }

def v2W : ChartVersion := { name := "p", version := "2", created := 2, keywords := ["b"] }

/-- A concrete cache holding one repository with the package ("p", [v1W, v2W]). -/
def cacheKW : ChartCacheMap := fun r =>
  if r = "r" then some [("p", [v1W, v2W])] else none

/-- Witness for C4 at the concrete two-version package: the emitted record
exists, is maximal by creation time, and carries the union of keywords. -/
theorem latest_version_query_witness :
    ∃ v, getLatestFromVersions [v1W, v2W] = some v ∧
      (∃ w, w ∈ [v1W, v2W] ∧ v.name = w.name ∧ v.version = w.version ∧
        v.created = w.created) ∧
      (∀ w, w ∈ [v1W, v2W] → w.created ≤ v.created) ∧
      (∀ k, k ∈ v.keywords ↔ ∃ w, w ∈ [v1W, v2W] ∧ k ∈ w.keywords) :=
  (latest_version_query cacheKW repoW [("p", [v1W, v2W])] rfl).2.2
    ("p", [v1W, v2W]) (List.mem_singleton.mpr rfl) (by decide)
